import Mathlib

/-!
Verification development for the rule-based Samsung device issue classifier
(LogAnalysis/main.py).  The engine is embedded shallowly: text is a list of
characters, the trigger table is a total function from category label to
trigger phrases, regular-expression searches for the (escaped, hence literal)
trigger phrases with word boundaries are translated to explicit positional
occurrence checks, and the three fixed normalization rewrites are translated
to direct scanning functions.  Character classes are modelled at the ASCII
level (the table, the labels and all tested inputs are ASCII).
-/

/-! ## Category labels (constants CRASH .. OTHER in main.py) -/

def CRASH : String := "Crash Issue"

def CAMERA : String := "Camera Issue"

def BLUETOOTH : String := "Bluetooth Issue"

def NFC : String := "NFC Issue"

def NOTIF : String := "Notification Issue"

def UI : String := "UI Issue"

def OTHER : String := "Other"

def ALL_CATEGORIES : List String := [CRASH, CAMERA, BLUETOOTH, NFC, NOTIF, UI]

/-- Abbreviation turning a string literal into the character-list text model. -/
def lc (s : String) : List Char := s.toList

/-! ## Trigger table (KEYWORDS in main.py); a Python dict keyed by the six
categories, modelled as a total function that is empty off the six keys. -/

def KEYWORDS (cat : String) : List (List Char) :=
  if cat = CRASH then
    (["crash", "crashes", "crashed", "crashing",
      "stopped working", "keeps stopping", "has stopped", "stops working",
      "force close", "force-close", "force stop", "force-stop",
      "stopped responding", "unfortunately", "app stopped", "app has stopped",
      "anr", "application not responding", "fatal exception", "fatal signal",
      "sigsegv", "sigabrt", "java.lang.", "nullpointerexception"]).map String.toList
  else if cat = CAMERA then
    (["camera", "cam", "selfie", "rear camera", "front camera", "photo", "video",
      "record", "capture", "shutter", "focus", "hdr", "portrait", "night mode",
      "pro mode", "qr", "barcode", "scan", "camera search"]).map String.toList
  else if cat = BLUETOOTH then
    (["bluetooth", "bt", "pair", "pairing", "paired", "connect", "connected",
      "disconnect", "disconnected", "a2dp", "hfp", "ble", "earbuds", "buds",
      "headset"]).map String.toList
  else if cat = NFC then
    (["nfc", "tap to pay", "contactless", "samsung pay", "google pay",
      "secure element", "se", "host card emulation", "hce"]).map String.toList
  else if cat = NOTIF then
    (["notification", "notifications", "push", "badge", "badges", "heads-up",
      "banner", "silent notification", "no notification", "do not disturb",
      "dnd", "blocked notifications"]).map String.toList
  else if cat = UI then
    (["ui", "one ui", "screen", "display", "layout", "button", "icon", "gesture",
      "freeze", "frozen", "stuck", "lag", "stutter", "animation", "render",
      "touch", "tap", "scroll", "scrolling", "ui bug", "ui issue"]).map String.toList
  else []

/-! ## Word characters and boundaries (regex backslash-b, ASCII model) -/

/-- Word character in the sense of the regex word-boundary class. -/
def isWordChar (c : Char) : Bool := c.isAlphanum || c == '_'

/-- Boundary condition on the left of an occurrence starting at index i whose
first character is a word character: start of text or non-word predecessor. -/
def boundaryBefore (t : List Char) (i : Nat) : Bool :=
  i == 0 || !isWordChar (t.getD (i - 1) ' ')

/-- Boundary condition to the right of an occurrence ending before index j
whose last character is a word character: end of text or non-word follower. -/
def boundaryAfter (t : List Char) (j : Nat) : Bool :=
  decide (t.length ≤ j) || !isWordChar (t.getD j ' ')

/-- Translation of the helper of the same name in main.py: the phrase starts
and ends with an alphanumeric character, so word boundaries are applicable. -/
def _is_wordy (s : List Char) : Bool :=
  !s.isEmpty && (s.headD ' ').isAlphanum && (s.getLastD ' ').isAlphanum

/-- Search for the escaped trigger phrase in the text, as in the scorer loop:
with word boundaries on both sides when the phrase is wordy, and as a plain
substring search otherwise. -/
def matchesTrigger (text w : List Char) : Bool :=
  if _is_wordy w then
    (List.range (text.length + 1)).any fun i =>
      w.isPrefixOf (text.drop i) && boundaryBefore text i &&
        boundaryAfter text (i + w.length)
  else
    (List.range (text.length + 1)).any fun i => w.isPrefixOf (text.drop i)

/-! ## Normalization rewrites (NORMALIZE_PATTERNS in main.py).  Each pattern
is translated to a matcher that, given the character preceding the current
position (for the word boundary) and the remaining text, returns the length
of the match at the current position, if any, following the ordered
alternation and greedy semantics of the pattern. -/

/-- No word character immediately before the current position. -/
def prevNonWord : Option Char → Bool
  | none => true
  | some c => !isWordChar c

/-- Tail alternation of the first pattern, with its trailing boundary. -/
def matchCrashTail (s : List Char) : Option Nat :=
  if ("crashing".toList).isPrefixOf s && boundaryAfter s 8 then some 8
  else if ("stopping".toList).isPrefixOf s && boundaryAfter s 8 then some 8
  else if ("closing".toList).isPrefixOf s && boundaryAfter s 7 then some 7
  else none

/-- Continuation of the first pattern after the app alternative: one space,
an optional greedy keeps-group, then the tail alternation. -/
def matchCrashCont (s : List Char) : Option Nat :=
  match s with
  | ' ' :: rest =>
    let withKeeps :=
      if ("keeps ".toList).isPrefixOf rest then
        (matchCrashTail (rest.drop 6)).map (fun n => 1 + 6 + n)
      else none
    match withKeeps with
    | some n => some n
    | none => (matchCrashTail rest).map (fun n => 1 + n)
  | _ => none

/-- First rewrite pattern: app or application, optionally keeps, then a
crashing, stopping or closing verb, all between word boundaries. -/
def tryPat1 (prev : Option Char) (s : List Char) : Option Nat :=
  if !prevNonWord prev then none
  else
    match (if ("app".toList).isPrefixOf s then
             (matchCrashCont (s.drop 3)).map (fun n => 3 + n)
           else none) with
    | some n => some n
    | none =>
      if ("application".toList).isPrefixOf s then
        (matchCrashCont (s.drop 11)).map (fun n => 11 + n)
      else none

/-- Second rewrite pattern: stopped or stops, then working, between word
boundaries. -/
def tryPat2 (prev : Option Char) (s : List Char) : Option Nat :=
  if !prevNonWord prev then none
  else if ("stopped working".toList).isPrefixOf s && boundaryAfter s 15 then some 15
  else if ("stops working".toList).isPrefixOf s && boundaryAfter s 13 then some 13
  else none

/-- End search for the third pattern: after the separator run, the greedy
dot-star picks the last occurrence of the has-stopped literal that is
reachable without crossing a newline and is followed by a word boundary. -/
def pat3End (r : List Char) : Option Nat :=
  match ((List.range (r.length + 1)).filter fun j =>
      (" has stopped".toList).isPrefixOf (r.drop j) &&
        (r.take j).all (fun ch => ch != '\n') &&
        boundaryAfter r (j + 12)).getLast? with
  | some j => some (j + 12)
  | none => none

/-- Third rewrite pattern: unfortunately, a nonempty run of commas or spaces,
anything on the same line, then has stopped, between word boundaries. -/
def tryPat3 (prev : Option Char) (s : List Char) : Option Nat :=
  if !prevNonWord prev then none
  else if ("unfortunately".toList).isPrefixOf s then
    match s.drop 13 with
    | c :: rest =>
      if c == ',' || c == ' ' then (pat3End rest).map (fun n => 14 + n) else none
    | [] => none
  else none

/-- Global substitution of a pattern in the text, replacing each leftmost
non-overlapping match and continuing after it in the original text, as the
sub method does.  The fuel argument (instantiated with the text length) makes
the recursion structural; every match consumes at least one character. -/
def reSub (tryM : Option Char → List Char → Option Nat) (repl : List Char) :
    Nat → Option Char → List Char → List Char
  | 0, _, s => s
  | _ + 1, _, [] => []
  | fuel + 1, prev, c :: rest =>
    match tryM prev (c :: rest) with
    | some (n + 1) =>
      repl ++ reSub tryM repl fuel (some ((c :: rest).getD n c)) ((c :: rest).drop (n + 1))
    | _ => c :: reSub tryM repl fuel (some c) rest

/-- Translation of the text preparation in main.py: concatenate title and
content with a newline, lowercase, then apply the three rewrites in order. -/
def _prep_text (title content : List Char) : List Char :=
  let t := (title ++ '\n' :: content).map Char.toLower
  let t1 := reSub tryPat1 ("crash".toList) t.length none t
  let t2 := reSub tryPat2 ("stopped working".toList) t1.length none t1
  reSub tryPat3 ("app has stopped".toList) t2.length none t2

/-! ## Scoring (the function of the same name in main.py) -/

/-- Weight added for a matched trigger: multi-word phrases are boosted. -/
def trigWeight (w : List Char) : Nat := if w.contains ' ' then 2 else 1

/-- Per-category score accumulated over the category's trigger list. -/
def scoreOf (text : List Char) (cat : String) : Nat :=
  (KEYWORDS cat).foldl
    (fun acc w => if matchesTrigger text w then acc + trigWeight w else acc) 0

/-- Per-category list of matched triggers, in trigger-table order. -/
def reasonsOf (text : List Char) (cat : String) : List (List Char) :=
  (KEYWORDS cat).foldl
    (fun acc w => if matchesTrigger text w then acc ++ [w] else acc) []

/-- Scores and reasons dictionaries, modelled as total functions. -/
def _score_categories (text : List Char) :
    (String → Nat) × (String → List (List Char)) :=
  (scoreOf text, reasonsOf text)

/-! ## Selection (classify_issue in main.py) -/

structure Classification where
  primary : String
  secondary : List String
  scores : String → Nat
  reasons : String → List (List Char)

/-- Order in which a category may precede another in the ranked list: its
sort key, the pair of score and label compared lexicographically, is at least
the key of the other.  This is the order produced by the reverse sort on the
key pair in main.py. -/
def rankRel (scores : String → Nat) (a b : String) : Prop :=
  scores b < scores a ∨ (scores b = scores a ∧ b ≤ a)

instance rankRelDec (scores : String → Nat) : DecidableRel (rankRel scores) :=
  fun a b =>
    decidable_of_iff (scores b < scores a ∨ (scores b = scores a ∧ b.toList ≤ a.toList))
      (by unfold rankRel; rw [String.le_iff_toList_le])

/-- Ranked category list: all categories sorted by score descending with the
label as tie-break, as produced by the reverse sort in main.py. -/
def rankedCats (scores : String → Nat) : List String :=
  List.insertionSort (rankRel scores) ALL_CATEGORIES

/-- The non-crash categories in declaration order, as enumerated in the
dominance branch of classify_issue. -/
def topicalCats : List String := [CAMERA, BLUETOOTH, NFC, NOTIF, UI]

/-- Translation of the secondary-collection loop of the ranking branch: stop
at the first zero score, and stop once the budget of top-k minus one entries
has been filled. -/
def collectSecondary (scores : String → Nat) : Int → List String → List String
  | _, [] => []
  | b, c :: cs =>
    if scores c ≤ 0 then []
    else if b ≤ 1 then [c]
    else c :: collectSecondary scores (b - 1) cs

/-- Translation of classify_issue: crash dominance branch when the crash
score is positive, otherwise the ranking branch. -/
def classify_issue (title content : List Char) (top_k : Int) : Classification :=
  let text := _prep_text title content
  if 0 < scoreOf text CRASH then
    { primary := CRASH
      secondary :=
        (topicalCats.filter fun c => 0 < scoreOf text c).take (max 0 (top_k - 1)).toNat
      scores := scoreOf text
      reasons := reasonsOf text }
  else
    let ranked := rankedCats (scoreOf text)
    { primary := if 0 < scoreOf text ranked.headI then ranked.headI else OTHER
      secondary :=
        if 1 < top_k then collectSecondary (scoreOf text) (top_k - 1) ranked.tail
        else []
      scores := scoreOf text
      reasons := reasonsOf text }

/-! ## Basic lemmas about the scorer -/

/-- Accumulating fold computing a score equals the accumulator plus the sum
of the weights of the matching triggers. -/
theorem foldl_weight_eq (text : List Char) (l : List (List Char)) (a : Nat) :
    l.foldl (fun acc w => if matchesTrigger text w then acc + trigWeight w else acc) a
      = a + ((l.filter fun w => matchesTrigger text w).map trigWeight).sum := by
  induction l generalizing a with
  | nil => simp
  | cons w ws ih =>
    by_cases h : matchesTrigger text w = true
    · simp [h, ih, Nat.add_assoc]
    · simp [h, ih]

/-- The score of a category is the sum of the weights of its matching
triggers. -/
theorem scoreOf_eq (text : List Char) (cat : String) :
    scoreOf text cat
      = (((KEYWORDS cat).filter fun w => matchesTrigger text w).map trigWeight).sum := by
  simpa using foldl_weight_eq text (KEYWORDS cat) 0

/-- Accumulating fold collecting reasons equals the accumulator followed by
the matching triggers. -/
theorem foldl_reasons_eq (text : List Char) (l : List (List Char)) (a : List (List Char)) :
    l.foldl (fun acc w => if matchesTrigger text w then acc ++ [w] else acc) a
      = a ++ (l.filter fun w => matchesTrigger text w) := by
  induction l generalizing a with
  | nil => simp
  | cons w ws ih =>
    by_cases h : matchesTrigger text w = true
    · simp [h, ih]
    · simp [h, ih]

/-- The reasons of a category are exactly its matching triggers, in table
order. -/
theorem reasonsOf_eq (text : List Char) (cat : String) :
    reasonsOf text cat = (KEYWORDS cat).filter fun w => matchesTrigger text w := by
  simpa using foldl_reasons_eq text (KEYWORDS cat) []

/-- Every trigger weight is positive. -/
theorem trigWeight_pos (w : List Char) : 0 < trigWeight w := by
  unfold trigWeight; split <;> omega

/-- A sum of trigger weights is positive exactly when the list is nonempty. -/
theorem sum_trigWeight_pos_iff (l : List (List Char)) :
    0 < (l.map trigWeight).sum ↔ l ≠ [] := by
  cases l with
  | nil => simp
  | cons w ws =>
    simp only [List.map_cons, List.sum_cons, ne_eq, reduceCtorEq, not_false_eq_true,
      iff_true]
    have := trigWeight_pos w
    omega

/-- Each of the seven trigger lists in the table is duplicate-free. -/
theorem keywords_nodup (cat : String) : (KEYWORDS cat).Nodup := by
  unfold KEYWORDS
  repeat' split
  all_goals decide

/-! ## Lemmas about the secondary-collection loop -/

/-- Members of the collected secondaries come from the scanned list and have
positive score. -/
theorem collectSecondary_sub (s : String → Nat) (b : Int) (l : List String) :
    ∀ c ∈ collectSecondary s b l, c ∈ l ∧ 0 < s c := by
  induction l generalizing b with
  | nil => simp [collectSecondary]
  | cons x xs ih =>
    intro c hc
    simp only [collectSecondary] at hc
    by_cases h0 : s x ≤ 0
    · simp [h0] at hc
    · rw [if_neg h0] at hc
      by_cases hb : b ≤ 1
      · rw [if_pos hb] at hc
        simp only [List.mem_singleton] at hc
        subst hc
        exact ⟨List.mem_cons_self _ _, by omega⟩
      · rw [if_neg hb] at hc
        rcases List.mem_cons.mp hc with rfl | hc2
        · exact ⟨List.mem_cons_self _ _, by omega⟩
        · obtain ⟨h1, h2⟩ := ih (b - 1) c hc2
          exact ⟨List.mem_cons_of_mem _ h1, h2⟩

/-- The collected secondaries never exceed the budget. -/
theorem collectSecondary_length (s : String → Nat) (l : List String) :
    ∀ b : Int, 1 ≤ b → (collectSecondary s b l).length ≤ b.toNat := by
  induction l with
  | nil => intro b _; simp [collectSecondary]
  | cons x xs ih =>
    intro b hb
    simp only [collectSecondary]
    by_cases h0 : s x ≤ 0
    · simp [h0]
    · rw [if_neg h0]
      by_cases hb1 : b ≤ 1
      · rw [if_pos hb1]; simp; omega
      · rw [if_neg hb1]
        simp only [List.length_cons]
        have := ih (b - 1) (by omega)
        omega

/-- The collection loop computes the positive-score prefix truncated to the
budget. -/
theorem collectSecondary_eq_take (s : String → Nat) (l : List String) :
    ∀ b : Int, 1 ≤ b →
      collectSecondary s b l = (l.takeWhile fun c => 0 < s c).take b.toNat := by
  induction l with
  | nil => intro b _; simp [collectSecondary]
  | cons x xs ih =>
    intro b hb
    simp only [collectSecondary, List.takeWhile_cons]
    by_cases h0 : s x ≤ 0
    · rw [if_pos h0]
      have : ¬ (0 < s x) := by omega
      simp [this]
    · rw [if_neg h0]
      have hx : 0 < s x := by omega
      rw [if_pos (decide_eq_true hx)]
      have hbn : ∃ m : Nat, b.toNat = m + 1 := ⟨b.toNat - 1, by omega⟩
      obtain ⟨m, hm⟩ := hbn
      rw [hm, List.take_succ_cons]
      by_cases hb1 : b ≤ 1
      · rw [if_pos hb1]
        have hb' : b = 1 := by omega
        have hm0 : m = 0 := by omega
        rw [hm0, List.take_zero]
      · rw [if_neg hb1]
        rw [ih (b - 1) (by omega)]
        have : (b - 1).toNat = m := by omega
        rw [this]

/-! ## Lemmas about the ranking -/

instance rankRelTotal (s : String → Nat) : IsTotal String (rankRel s) := by
  constructor
  intro a b
  unfold rankRel
  rcases Nat.lt_trichotomy (s a) (s b) with h | h | h
  · exact Or.inr (Or.inl h)
  · rcases le_total b a with hba | hab
    · exact Or.inl (Or.inr ⟨h.symm, hba⟩)
    · exact Or.inr (Or.inr ⟨h, hab⟩)
  · exact Or.inl (Or.inl h)

instance rankRelTrans (s : String → Nat) : IsTrans String (rankRel s) := by
  constructor
  intro a b c hab hbc
  unfold rankRel at *
  rcases hab with h1 | ⟨h1, hba⟩ <;> rcases hbc with h2 | ⟨h2, hcb⟩
  · exact Or.inl (by omega)
  · exact Or.inl (by omega)
  · exact Or.inl (by omega)
  · exact Or.inr ⟨by omega, le_trans hcb hba⟩

/-- The ranked list is a permutation of the category list. -/
theorem rankedCats_perm (s : String → Nat) : (rankedCats s).Perm ALL_CATEGORIES :=
  List.perm_insertionSort _ _

/-- The ranked list has no duplicates. -/
theorem rankedCats_nodup (s : String → Nat) : (rankedCats s).Nodup :=
  ((rankedCats_perm s).nodup_iff).mpr (by decide)

/-- The ranked list is never empty. -/
theorem rankedCats_ne_nil (s : String → Nat) : rankedCats s ≠ [] := by
  intro h
  have hlen := (rankedCats_perm s).length_eq
  rw [h] at hlen
  simp [ALL_CATEGORIES] at hlen

/-- Membership in the ranked list is membership in the category list. -/
theorem rankedCats_mem (s : String → Nat) (c : String) :
    c ∈ rankedCats s ↔ c ∈ ALL_CATEGORIES :=
  (rankedCats_perm s).mem_iff

/-- The ranked list is sorted by descending score with descending label as
the tie-break. -/
theorem rankedCats_sorted (s : String → Nat) :
    (rankedCats s).Sorted (rankRel s) :=
  List.sorted_insertionSort _ _

/-! ## Branch lemmas for the selector -/

/-- Crash-dominance branch of classify_issue, as a record equation. -/
theorem classify_issue_crash (title content : List Char) (top_k : Int)
    (h : 0 < scoreOf (_prep_text title content) CRASH) :
    classify_issue title content top_k =
      { primary := CRASH
        secondary :=
          (topicalCats.filter fun c => 0 < scoreOf (_prep_text title content) c).take
            (max 0 (top_k - 1)).toNat
        scores := scoreOf (_prep_text title content)
        reasons := reasonsOf (_prep_text title content) } := by
  simp only [classify_issue]
  rw [if_pos h]

/-- Ranking branch of classify_issue, as a record equation. -/
theorem classify_issue_rank (title content : List Char) (top_k : Int)
    (h : ¬ 0 < scoreOf (_prep_text title content) CRASH) :
    classify_issue title content top_k =
      { primary :=
          if 0 < scoreOf (_prep_text title content)
              (rankedCats (scoreOf (_prep_text title content))).headI then
            (rankedCats (scoreOf (_prep_text title content))).headI
          else OTHER
        secondary :=
          if 1 < top_k then
            collectSecondary (scoreOf (_prep_text title content)) (top_k - 1)
              (rankedCats (scoreOf (_prep_text title content))).tail
          else []
        scores := scoreOf (_prep_text title content)
        reasons := reasonsOf (_prep_text title content) } := by
  simp only [classify_issue]
  rw [if_neg h]

/-- Primary label in the crash branch. -/
theorem classify_crash_primary (title content : List Char) (top_k : Int)
    (h : 0 < scoreOf (_prep_text title content) CRASH) :
    (classify_issue title content top_k).primary = CRASH := by
  rw [classify_issue_crash title content top_k h]

/-- Secondary labels in the crash branch. -/
theorem classify_crash_secondary (title content : List Char) (top_k : Int)
    (h : 0 < scoreOf (_prep_text title content) CRASH) :
    (classify_issue title content top_k).secondary =
      (topicalCats.filter fun c => 0 < scoreOf (_prep_text title content) c).take
        (max 0 (top_k - 1)).toNat := by
  rw [classify_issue_crash title content top_k h]

/-- Primary label in the ranking branch. -/
theorem classify_rank_primary (title content : List Char) (top_k : Int)
    (h : ¬ 0 < scoreOf (_prep_text title content) CRASH) :
    (classify_issue title content top_k).primary =
      (if 0 < scoreOf (_prep_text title content)
          (rankedCats (scoreOf (_prep_text title content))).headI then
        (rankedCats (scoreOf (_prep_text title content))).headI
      else OTHER) := by
  rw [classify_issue_rank title content top_k h]

/-- Secondary labels in the ranking branch. -/
theorem classify_rank_secondary (title content : List Char) (top_k : Int)
    (h : ¬ 0 < scoreOf (_prep_text title content) CRASH) :
    (classify_issue title content top_k).secondary =
      (if 1 < top_k then
        collectSecondary (scoreOf (_prep_text title content)) (top_k - 1)
          (rankedCats (scoreOf (_prep_text title content))).tail
      else []) := by
  rw [classify_issue_rank title content top_k h]

/-! ## Characterization of the trigger search -/

/-- A list is an infix exactly when it is a prefix of some suffix. -/
theorem exists_prefix_drop_iff_infix (w t : List Char) :
    (∃ i, w <+: t.drop i) ↔ w <:+: t := by
  constructor
  · rintro ⟨i, hp⟩
    exact List.infix_iff_prefix_suffix.mpr ⟨t.drop i, hp, List.drop_suffix i t⟩
  · rintro ⟨s, u, rfl⟩
    refine ⟨s.length, ?_⟩
    rw [List.append_assoc, List.drop_left]
    exact List.prefix_append w u

/-- A wordy phrase is nonempty. -/
theorem ne_nil_of_wordy {w : List Char} (hw : _is_wordy w = true) : w ≠ [] := by
  intro h
  subst h
  simp [_is_wordy] at hw

/-- For a wordy phrase the search succeeds exactly when the phrase occurs at
some position that is flanked by word boundaries on both sides. -/
theorem matchesTrigger_wordy_iff (w t : List Char) (hw : _is_wordy w = true) :
    matchesTrigger t w = true ↔
      ∃ i, w <+: t.drop i ∧ (i = 0 ∨ isWordChar (t.getD (i - 1) ' ') = false) ∧
        (t.length ≤ i + w.length ∨ isWordChar (t.getD (i + w.length) ' ') = false) := by
  unfold matchesTrigger boundaryBefore boundaryAfter
  rw [if_pos hw]
  simp only [List.any_eq_true, List.mem_range, Bool.and_eq_true, Bool.or_eq_true,
    beq_iff_eq, Bool.not_eq_true', decide_eq_true_eq, List.isPrefixOf_iff_prefix]
  constructor
  · rintro ⟨i, -, ⟨hp, hb⟩, ha⟩
    exact ⟨i, hp, hb, ha⟩
  · rintro ⟨i, hp, hb, ha⟩
    refine ⟨i, ?_, ⟨hp, hb⟩, ha⟩
    by_contra hi
    have hdrop : t.drop i = [] := List.drop_eq_nil_iff.mpr (by omega)
    rw [hdrop, List.prefix_nil] at hp
    exact ne_nil_of_wordy hw hp

/-- For a non-wordy phrase the search succeeds exactly when the phrase is an
infix of the text. -/
theorem matchesTrigger_substring_iff (w t : List Char) (hw : _is_wordy w = false) :
    matchesTrigger t w = true ↔ w <:+: t := by
  unfold matchesTrigger
  rw [if_neg (by simp [hw])]
  simp only [List.any_eq_true, List.mem_range, List.isPrefixOf_iff_prefix]
  rw [← exists_prefix_drop_iff_infix]
  constructor
  · rintro ⟨i, -, hp⟩
    exact ⟨i, hp⟩
  · rintro ⟨i, hp⟩
    by_cases hi : i < t.length + 1
    · exact ⟨i, hi, hp⟩
    · have hdrop : t.drop i = [] := List.drop_eq_nil_iff.mpr (by omega)
      rw [hdrop, List.prefix_nil] at hp
      subst hp
      exact ⟨0, by omega, List.nil_prefix⟩

/-! ## Claim theorems -/

/-- C1: for every title, content and top-k, if the crash category scores
positively on the canonical text, classify_issue returns a classification
whose primary label is the crash category, regardless of the scores of all
other categories. -/
theorem crash_dominates_primary (title content : List Char) (top_k : Int)
    (h : 0 < scoreOf (_prep_text title content) CRASH) :
    (classify_issue title content top_k).primary = CRASH :=
  classify_crash_primary title content top_k h

theorem crash_dominates_primary_witness :
    0 < scoreOf (_prep_text (lc "crash") (lc "")) CRASH ∧
      (classify_issue (lc "crash") (lc "") 1).primary = CRASH :=
  ⟨by decide, crash_dominates_primary (lc "crash") (lc "") 1 (by decide)⟩

/-- C2 counterexample: on the text with one camera trigger and one bluetooth
trigger and no crash trigger, the two categories tie, the bluetooth label is
alphabetically smaller, yet the camera category is chosen as primary and the
bluetooth category is ranked after it: the tie-break is label-descending,
not label-ascending as claimed. -/
theorem ranking_tiebreak_counterexample :
    scoreOf (_prep_text (lc "camera bluetooth") (lc "")) CRASH = 0 ∧
    scoreOf (_prep_text (lc "camera bluetooth") (lc "")) BLUETOOTH =
      scoreOf (_prep_text (lc "camera bluetooth") (lc "")) CAMERA ∧
    0 < scoreOf (_prep_text (lc "camera bluetooth") (lc "")) BLUETOOTH ∧
    BLUETOOTH < CAMERA ∧
    (classify_issue (lc "camera bluetooth") (lc "") 2).primary = CAMERA ∧
    (classify_issue (lc "camera bluetooth") (lc "") 2).secondary = [BLUETOOTH] := by
  refine ⟨by decide, by decide, by decide, ?_, by decide, by decide⟩
  rw [String.lt_iff_toList_lt]
  decide

/-- C2 as amended: for every input with crash score zero, classify_issue
ranks all categories by score descending with the category label descending
as the tie-break; the primary is the highest-ranked category when its score
is positive and the literal Other label otherwise, and the secondary list is
the positive-score prefix of the remaining ranked categories truncated to
top-k minus one entries. -/
theorem ranking_branch_characterization (title content : List Char) (top_k : Int)
    (h : scoreOf (_prep_text title content) CRASH = 0) :
    ∃ ranked : List String,
      ranked.Perm ALL_CATEGORIES ∧
      ranked.Sorted (rankRel (scoreOf (_prep_text title content))) ∧
      (classify_issue title content top_k).primary =
        (if 0 < scoreOf (_prep_text title content) ranked.headI then ranked.headI
         else OTHER) ∧
      (classify_issue title content top_k).secondary =
        ((ranked.drop 1).takeWhile fun c =>
            0 < scoreOf (_prep_text title content) c).take (top_k - 1).toNat := by
  have hn : ¬ 0 < scoreOf (_prep_text title content) CRASH := by omega
  refine ⟨rankedCats (scoreOf (_prep_text title content)), rankedCats_perm _,
    rankedCats_sorted _, classify_rank_primary title content top_k hn, ?_⟩
  rw [classify_rank_secondary title content top_k hn, List.drop_one]
  by_cases hk : 1 < top_k
  · rw [if_pos hk, collectSecondary_eq_take _ _ (top_k - 1) (by omega)]
  · rw [if_neg hk]
    have h0 : (top_k - 1).toNat = 0 := by omega
    rw [h0, List.take_zero]

theorem ranking_branch_characterization_witness :
    scoreOf (_prep_text (lc "camera bluetooth") (lc "")) CRASH = 0 ∧
    ∃ ranked : List String,
      ranked.Perm ALL_CATEGORIES ∧
      ranked.Sorted (rankRel (scoreOf (_prep_text (lc "camera bluetooth") (lc "")))) ∧
      (classify_issue (lc "camera bluetooth") (lc "") 2).primary =
        (if 0 < scoreOf (_prep_text (lc "camera bluetooth") (lc "")) ranked.headI then
          ranked.headI
         else OTHER) ∧
      (classify_issue (lc "camera bluetooth") (lc "") 2).secondary =
        ((ranked.drop 1).takeWhile fun c =>
            0 < scoreOf (_prep_text (lc "camera bluetooth") (lc "")) c).take
          ((2 : Int) - 1).toNat :=
  ⟨by decide, ranking_branch_characterization (lc "camera bluetooth") (lc "") 2 (by decide)⟩

/-- C3: for every canonical text and category, the score is the sum, over
the matched trigger phrases, of exactly 2 points for a phrase containing a
space and exactly 1 point otherwise, and each distinct trigger phrase is
counted at most once per category no matter how often it occurs in the
text. -/
theorem trigger_weights_and_single_count (text : List Char) (cat : String) :
    scoreOf text cat =
      (((KEYWORDS cat).filter fun w => matchesTrigger text w).map
        fun w => if w.contains ' ' then 2 else 1).sum ∧
    ((KEYWORDS cat).filter fun w => matchesTrigger text w).Nodup := by
  constructor
  · rw [scoreOf_eq]
    rfl
  · exact (keywords_nodup cat).filter _

/-- C4: a trigger phrase whose first and last characters are alphanumeric is
matched only as a whole-word occurrence flanked by word boundaries, never
inside a longer word, while a phrase starting or ending with a
non-alphanumeric character is matched as a raw substring; in particular the
wordy two-letter phrase bt is not matched in the text about the abstract,
and not matched inside the word subtle although it is a substring of it. -/
theorem word_boundary_matching :
    (∀ w t : List Char, _is_wordy w = true →
        (matchesTrigger t w = true ↔
          ∃ i, w <+: t.drop i ∧ (i = 0 ∨ isWordChar (t.getD (i - 1) ' ') = false) ∧
            (t.length ≤ i + w.length ∨ isWordChar (t.getD (i + w.length) ' ') = false))) ∧
    (∀ w t : List Char, _is_wordy w = false →
        (matchesTrigger t w = true ↔ w <:+: t)) ∧
    _is_wordy (lc "bt") = true ∧
    matchesTrigger (lc "about the abstract") (lc "bt") = false ∧
    (lc "bt") <:+: (lc "subtle") ∧
    matchesTrigger (lc "subtle") (lc "bt") = false := by
  refine ⟨fun w t hw => matchesTrigger_wordy_iff w t hw,
    fun w t hw => matchesTrigger_substring_iff w t hw,
    by decide, by decide, ⟨lc "su", lc "le", by decide⟩, by decide⟩

theorem word_boundary_matching_witness :
    _is_wordy (lc "bt") = true ∧ matchesTrigger (lc "use bt now") (lc "bt") = true :=
  ⟨by decide,
    (word_boundary_matching.1 (lc "bt") (lc "use bt now") (by decide)).mpr
      ⟨4, ⟨lc " now", by decide⟩, Or.inr (by decide), Or.inr (by decide)⟩⟩

/-- C5: for every title, content and top-k, the primary label never occurs
in the secondary list. -/
theorem primary_not_in_secondary (title content : List Char) (top_k : Int) :
    (classify_issue title content top_k).primary ∉
      (classify_issue title content top_k).secondary := by
  by_cases h : 0 < scoreOf (_prep_text title content) CRASH
  · rw [classify_crash_primary title content top_k h,
      classify_crash_secondary title content top_k h]
    intro hmem
    have h1 : CRASH ∈ topicalCats :=
      List.mem_of_mem_filter (List.take_subset _ _ hmem)
    revert h1
    decide
  · rw [classify_rank_primary title content top_k h,
      classify_rank_secondary title content top_k h]
    by_cases hk : 1 < top_k
    · rw [if_pos hk]
      by_cases hp : 0 < scoreOf (_prep_text title content)
          (rankedCats (scoreOf (_prep_text title content))).headI
      · rw [if_pos hp]
        intro hmem
        obtain ⟨hin, -⟩ := collectSecondary_sub _ _ _ _ hmem
        have hnd := rankedCats_nodup (scoreOf (_prep_text title content))
        obtain ⟨a, as, hcons⟩ :=
          List.exists_cons_of_ne_nil (rankedCats_ne_nil (scoreOf (_prep_text title content)))
        rw [hcons] at hin hnd
        simp only [List.headI_cons, List.tail_cons] at hin
        exact (List.nodup_cons.mp hnd).1 hin
      · rw [if_neg hp]
        intro hmem
        obtain ⟨hin, -⟩ := collectSecondary_sub _ _ _ _ hmem
        have h2 : OTHER ∈ rankedCats (scoreOf (_prep_text title content)) :=
          (List.tail_sublist _).subset hin
        rw [rankedCats_mem] at h2
        revert h2
        decide
    · rw [if_neg hk]
      exact List.not_mem_nil _

theorem primary_not_in_secondary_witness :
    (classify_issue (lc "camera") (lc "") 2).primary ∉
      (classify_issue (lc "camera") (lc "") 2).secondary :=
  primary_not_in_secondary (lc "camera") (lc "") 2

/-- C6: for every title, content and top-k, the secondary list has at most
max of 0 and top-k minus one entries, and every category in it has a
positive score. -/
theorem secondary_bound_and_positive (title content : List Char) (top_k : Int) :
    ((classify_issue title content top_k).secondary.length : Int) ≤ max 0 (top_k - 1) ∧
    ∀ cat ∈ (classify_issue title content top_k).secondary,
      0 < scoreOf (_prep_text title content) cat := by
  by_cases h : 0 < scoreOf (_prep_text title content) CRASH
  · rw [classify_crash_secondary title content top_k h]
    constructor
    · have h1 := List.length_take_le ((max 0 (top_k - 1)).toNat)
        (topicalCats.filter fun c => 0 < scoreOf (_prep_text title content) c)
      have h2 : (((max 0 (top_k - 1)).toNat : Int)) = max 0 (top_k - 1) := by
        rcases le_total (top_k - 1) 0 with hle | hle
        · rw [max_eq_left hle]
          rfl
        · rw [max_eq_right hle]
          omega
      rw [← h2]
      exact_mod_cast h1
    · intro cat hmem
      have h3 := List.mem_filter.mp (List.take_subset _ _ hmem)
      exact of_decide_eq_true h3.2
  · rw [classify_rank_secondary title content top_k h]
    by_cases hk : 1 < top_k
    · rw [if_pos hk]
      constructor
      · have h1 := collectSecondary_length (scoreOf (_prep_text title content))
          (rankedCats (scoreOf (_prep_text title content))).tail (top_k - 1) (by omega)
        calc ((collectSecondary (scoreOf (_prep_text title content)) (top_k - 1)
              (rankedCats (scoreOf (_prep_text title content))).tail).length : Int)
            ≤ ((top_k - 1).toNat : Int) := by exact_mod_cast h1
          _ = top_k - 1 := by omega
          _ ≤ max 0 (top_k - 1) := le_max_right _ _
      · intro cat hmem
        exact (collectSecondary_sub _ _ _ _ hmem).2
    · rw [if_neg hk]
      constructor
      · simp
      · intro cat hmem
        simp at hmem

theorem secondary_bound_and_positive_witness :
    (((classify_issue (lc "camera crashed") (lc "") 3).secondary.length : Int) ≤
      max 0 ((3 : Int) - 1)) ∧
    ∀ cat ∈ (classify_issue (lc "camera crashed") (lc "") 3).secondary,
      0 < scoreOf (_prep_text (lc "camera crashed") (lc "")) cat :=
  secondary_bound_and_positive (lc "camera crashed") (lc "") 3

/-- C7: in the crash-dominance branch the secondary labels are exactly the
other categories with positive score, in the fixed declaration order, not
sorted by score, truncated to top-k minus one entries. -/
theorem crash_branch_secondary_order (title content : List Char) (top_k : Int)
    (h : 0 < scoreOf (_prep_text title content) CRASH) :
    (classify_issue title content top_k).secondary =
      ((ALL_CATEGORIES.filter fun c => c ≠ CRASH).filter
          fun c => 0 < scoreOf (_prep_text title content) c).take (top_k - 1).toNat := by
  rw [classify_crash_secondary title content top_k h]
  have h1 : (ALL_CATEGORIES.filter fun c => c ≠ CRASH) = topicalCats := by decide
  rw [h1]
  congr 1
  omega

theorem crash_branch_secondary_order_witness :
    0 < scoreOf (_prep_text (lc "camera crashed") (lc "")) CRASH ∧
    (classify_issue (lc "camera crashed") (lc "") 2).secondary =
      ((ALL_CATEGORIES.filter fun c => c ≠ CRASH).filter
          fun c => 0 < scoreOf (_prep_text (lc "camera crashed") (lc "")) c).take
        ((2 : Int) - 1).toNat :=
  ⟨by decide, crash_branch_secondary_order (lc "camera crashed") (lc "") 2 (by decide)⟩

/-- C8: classification is total, and when no trigger phrase matches the
canonical text the primary is the Other label and the secondary list is
empty; in particular empty title and empty content give primary Other and no
secondaries. -/
theorem total_and_fallback_other :
    (∀ (title content : List Char) (top_k : Int),
        (∀ cat ∈ ALL_CATEGORIES, ∀ w ∈ KEYWORDS cat,
            matchesTrigger (_prep_text title content) w = false) →
          (classify_issue title content top_k).primary = OTHER ∧
          (classify_issue title content top_k).secondary = []) ∧
    (∀ top_k : Int,
        (classify_issue (lc "") (lc "") top_k).primary = OTHER ∧
        (classify_issue (lc "") (lc "") top_k).secondary = []) := by
  have main : ∀ (title content : List Char) (top_k : Int),
      (∀ cat ∈ ALL_CATEGORIES, ∀ w ∈ KEYWORDS cat,
          matchesTrigger (_prep_text title content) w = false) →
        (classify_issue title content top_k).primary = OTHER ∧
        (classify_issue title content top_k).secondary = [] := by
    intro title content top_k hno
    have hzero : ∀ cat ∈ ALL_CATEGORIES, scoreOf (_prep_text title content) cat = 0 := by
      intro cat hc
      rw [scoreOf_eq]
      have hfil : ((KEYWORDS cat).filter fun w =>
          matchesTrigger (_prep_text title content) w) = [] := by
        rw [List.filter_eq_nil_iff]
        intro w hw
        simp [hno cat hc w hw]
      rw [hfil]
      rfl
    have hcr : ¬ 0 < scoreOf (_prep_text title content) CRASH := by
      have := hzero CRASH (by decide)
      omega
    constructor
    · rw [classify_rank_primary title content top_k hcr]
      have hmem : (rankedCats (scoreOf (_prep_text title content))).headI ∈
          ALL_CATEGORIES := by
        rw [← rankedCats_mem (scoreOf (_prep_text title content))]
        obtain ⟨a, as, hcons⟩ := List.exists_cons_of_ne_nil
          (rankedCats_ne_nil (scoreOf (_prep_text title content)))
        rw [hcons]
        simp
      rw [if_neg (by rw [hzero _ hmem]; omega)]
    · rw [classify_rank_secondary title content top_k hcr]
      by_cases hk : 1 < top_k
      · rw [if_pos hk]
        cases hres : collectSecondary (scoreOf (_prep_text title content)) (top_k - 1)
            (rankedCats (scoreOf (_prep_text title content))).tail with
        | nil => rfl
        | cons c cs =>
          exfalso
          have hcmem : c ∈ collectSecondary (scoreOf (_prep_text title content))
              (top_k - 1) (rankedCats (scoreOf (_prep_text title content))).tail := by
            rw [hres]
            exact List.mem_cons_self _ _
          obtain ⟨hin, hpos⟩ := collectSecondary_sub _ _ _ _ hcmem
          have h2 : c ∈ ALL_CATEGORIES := by
            rw [← rankedCats_mem (scoreOf (_prep_text title content))]
            exact (List.tail_sublist _).subset hin
          have := hzero c h2
          omega
      · rw [if_neg hk]
  exact ⟨main, fun top_k => main (lc "") (lc "") top_k (by decide)⟩

theorem total_and_fallback_other_witness :
    (classify_issue (lc "") (lc "") 2).primary = OTHER ∧
    (classify_issue (lc "") (lc "") 2).secondary = [] :=
  total_and_fallback_other.1 (lc "") (lc "") 2 (by decide)

/-- C9: on the example report the crash trigger crashed matches, so the
primary label is the crash category, and for every top-k of at least two the
camera category, whose triggers camera and camera search match, appears in
the secondary list. -/
theorem example_crash_camera (top_k : Int) :
    (classify_issue (lc "Amazon app crashed")
        (lc "happened while using camera search") top_k).primary = CRASH ∧
    (2 ≤ top_k →
      CAMERA ∈ (classify_issue (lc "Amazon app crashed")
          (lc "happened while using camera search") top_k).secondary) := by
  have h : 0 < scoreOf (_prep_text (lc "Amazon app crashed")
      (lc "happened while using camera search")) CRASH := by decide
  constructor
  · exact classify_crash_primary _ _ _ h
  · intro hk
    rw [classify_crash_secondary _ _ _ h]
    have hfil : (topicalCats.filter fun c =>
        0 < scoreOf (_prep_text (lc "Amazon app crashed")
          (lc "happened while using camera search")) c) = [CAMERA] := by decide
    rw [hfil]
    have hmax : max (0 : Int) (top_k - 1) = top_k - 1 := max_eq_right (by omega)
    rw [hmax]
    cases h2 : (top_k - 1).toNat with
    | zero => exact absurd h2 (by omega)
    | succ m =>
      rw [List.take_succ_cons]
      exact List.mem_cons_self _ _

theorem example_crash_camera_witness :
    (2 : Int) ≤ 2 ∧
    CAMERA ∈ (classify_issue (lc "Amazon app crashed")
        (lc "happened while using camera search") 2).secondary :=
  ⟨le_refl 2, (example_crash_camera 2).2 (le_refl 2)⟩

/-- C10: for every text and category, the score is positive exactly when the
reasons list is nonempty, the score equals the sum of the per-trigger
weights over the reasons list, and the reasons list has no duplicates. -/
theorem score_reasons_invariant (text : List Char) (cat : String) :
    (0 < scoreOf text cat ↔ reasonsOf text cat ≠ []) ∧
    scoreOf text cat = ((reasonsOf text cat).map trigWeight).sum ∧
    (reasonsOf text cat).Nodup := by
  refine ⟨?_, ?_, ?_⟩
  · rw [scoreOf_eq, reasonsOf_eq]
    exact sum_trigWeight_pos_iff _
  · rw [scoreOf_eq, reasonsOf_eq]
  · rw [reasonsOf_eq]
    exact (keywords_nodup cat).filter _
